import Mathlib

/-!
Verification of the tracer-module / spatial-axis core of the Newton-Krylov_OOC
repository, as a shallow embedding in Lean 4.

Floating-point arrays are modelled over exact rationals; numpy operations are
translated directly from `src/test_problem/spatial_axis.py`,
`src/test_problem/tracer_module_state.py` and
`src/cime_pop/tracer_module_state.py`.  Helpers from `src/utils.py` and the
netCDF4 layer are not under src/; where they decide a claim they are modelled
from the spec, with a doc comment saying so.
-/

namespace NK

/-- Python exceptions raised by the embedded code.  `valueErrorTuple` models
`raise ValueError(msg)` where `msg` is a tuple `(fmt, arg)` (both `dump`
methods build their message with a comma, so the `%` formatting is never
applied and the ValueError argument is the tuple itself). -/
inductive PyError where
  | valueError (msg : String)
  | valueErrorTuple (fmt arg : String)
  | keyError (key : String)
  | indexError
  | zeroDivisionError
  deriving Repr, DecidableEq

/-! ## SpatialAxis: parametric edge generation (`spatial_axis.py`, `_gen_edges`) -/

/-- The quintic stretching polynomial of `_gen_edges`
(`0.125 * coord * (15 + coord * coord * (3 * coord * coord - 10))`). -/
def stretch_fcn (x : ℚ) : ℚ := (1/8) * x * (15 + x * x * (3 * x * x - 10))

/-- The parametric axis definition: the `value` entries of `defn_dict` that
`_gen_edges` reads (axisname and units do not enter edge generation). -/
structure AxisDefn where
  nlevs : ℕ
  edge_start : ℚ
  edge_end : ℚ
  delta_ratio_max : ℚ
  deriving Repr, DecidableEq

/-- Sample point i of `np.linspace(-1.0, 1.0, nlevs)`: the value
`-1 + i * (2 / (nlevs - 1))`.  For `nlevs = 1` numpy returns the single point
`-1.0`; that agrees with this formula because division by zero yields 0 in ℚ,
so the i = 0 sample is `-1`. -/
def coord (n i : ℕ) : ℚ := -1 + i * (2 / ((n : ℚ) - 1))

/-- `delta_avg = (1.0 / nlevs) * (edge_end - edge_start)` of `_gen_edges`. -/
def delta_avg (ds : AxisDefn) : ℚ :=
  (1 / (ds.nlevs : ℚ)) * (ds.edge_end - ds.edge_start)

/-- `stretch_factor = delta_avg * (delta_ratio_max - 1) / (delta_ratio_max + 1)`. -/
def stretch_factor (ds : AxisDefn) : ℚ :=
  delta_avg ds * (ds.delta_ratio_max - 1) / (ds.delta_ratio_max + 1)

/-- Layer thickness i of `_gen_edges`:
`delta = delta_avg + stretch_factor * stretch_fcn`. -/
def delta (ds : AxisDefn) (i : ℕ) : ℚ :=
  delta_avg ds + stretch_factor ds * stretch_fcn (coord ds.nlevs i)

/-- Edge k of `_gen_edges`: `edges[0] = edge_start`,
`edges[1:] = edge_start + delta.cumsum()`, i.e. the cumulative sum of the
first k thicknesses shifted by `edge_start`. -/
def edge (ds : AxisDefn) (k : ℕ) : ℚ :=
  ds.edge_start + ∑ i in Finset.range k, delta ds i

/-- `_gen_edges` itself: raises ValueError when `delta_ratio_max < 1.0`,
otherwise returns the `1 + nlevs` edges. -/
def gen_edges (ds : AxisDefn) : Except PyError (List ℚ) :=
  if ds.delta_ratio_max < 1 then .error (.valueError "delta_ratio_max must be >= 1.0")
  else .ok ((List.range (ds.nlevs + 1)).map (edge ds))

/-- The thickness array of the generated axis, as a list
(`delta = edges[1:] - edges[:-1]` recomputed by `SpatialAxis.__init__`). -/
def deltaList (ds : AxisDefn) : List ℚ := (List.range ds.nlevs).map (delta ds)

/-- `np.max` of a nonempty array (spec-level operation used by the
`max(delta)/min(delta)` property; the empty-array default is never used under
`nlevs >= 1`). -/
def np_max : List ℚ → ℚ
  | [] => 0
  | a :: rest => rest.foldl max a

/-- `np.min` of a nonempty array. -/
def np_min : List ℚ → ℚ
  | [] => 0
  | a :: rest => rest.foldl min a

/-! ## SpatialAxis object state (`SpatialAxis.__init__` derived quantities) -/

/-- A constructed SpatialAxis: the fundamental data are the name and the edges
(loaded from a file's `<axisname>_edges` variable or produced by `_gen_edges`);
everything else is derived. -/
structure SpatialAxis where
  axisname : String
  edges : List ℚ

/-- `self._nlevs = len(self.edges) - 1`. -/
def SpatialAxis.nlevs (ax : SpatialAxis) : ℕ := ax.edges.length - 1

/-- `self.mid = 0.5 * (self.edges[:-1] + self.edges[1:])`. -/
def SpatialAxis.mid (ax : SpatialAxis) : List ℚ :=
  List.zipWith (fun a b => (1/2) * (a + b)) ax.edges ax.edges.tail

/-- `self.delta = self.edges[1:] - self.edges[:-1]`. -/
def SpatialAxis.delta (ax : SpatialAxis) : List ℚ :=
  List.zipWith (fun a b => b - a) ax.edges ax.edges.tail

/-- `SpatialAxis.dump_dimensions`. -/
def SpatialAxis.dump_dimensions (ax : SpatialAxis) : List (String × ℕ) :=
  [(ax.axisname, ax.nlevs), ("nbnds", 2), (ax.axisname ++ "_edges", ax.nlevs + 1)]

/-- The variables declared by `SpatialAxis.dump_vars_metadata`, reduced to
their name and dimension tuple (display attributes do not affect any claim). -/
def SpatialAxis.dump_vars_metadata (ax : SpatialAxis) : List (String × List String) :=
  [(ax.axisname, [ax.axisname]),
   (ax.axisname ++ "_bounds", [ax.axisname, "nbnds"]),
   (ax.axisname ++ "_edges", [ax.axisname ++ "_edges"]),
   (ax.axisname ++ "_delta", [ax.axisname])]

/-- The `<axisname>_bounds` payload written by `SpatialAxis.dump_write`
(`[:, 0] = edges[:-1]`, `[:, 1] = edges[1:]`), flattened row-major. -/
def SpatialAxis.bounds_vals (ax : SpatialAxis) : List ℚ :=
  ((List.zip ax.edges.dropLast ax.edges.tail).map (fun p => [p.1, p.2])).flatten

/-! ## Integration (`SpatialAxis.int_vals_mid`) -/

/-- `SpatialAxis.int_vals_mid`: `(self.delta * vals).sum(axis=-1)`.
The leading (batched) axes of `vals` are modelled by an arbitrary index type
`B`; the last axis is the list. -/
def int_vals_mid {B : Type} (delta : List ℚ) (vals : B → List ℚ) : B → ℚ :=
  fun b => (List.zipWith (fun x y => x * y) delta (vals b)).sum

/-! ## History time weights and statistics
(`tracer_module_state.py`, test_problem variant) -/

/-- The per-sample value of `hist_time_mean_weights`:
`np.full(timelen, 1.0 / (timelen - 1))` followed by halving the first and last
entries (distinct indices whenever `timelen >= 2`). -/
def hist_weight (timelen i : ℕ) : ℚ :=
  if i = 0 ∨ i = timelen - 1 then (1 / ((timelen : ℚ) - 1)) * (1/2)
  else 1 / ((timelen : ℚ) - 1)

/-- The weight array for a stored time-axis length `timelen`. -/
def wlist (timelen : ℕ) : List ℚ := (List.range timelen).map (hist_weight timelen)

/-- `TracerModuleState.hist_time_mean_weights`, as a function of the stored
time-axis length.  `1.0 / (timelen - 1)` raises ZeroDivisionError for
`timelen = 1`; for `timelen = 0` the division succeeds (`timelen - 1 = -1`)
but `weights[0]` on an empty array raises IndexError. -/
def hist_time_mean_weights (timelen : ℕ) : Except PyError (List ℚ) :=
  if timelen = 1 then .error .zeroDivisionError
  else if timelen = 0 then .error .indexError
  else .ok (wlist timelen)

/-- `np.einsum("i,i...", time_weights, tracer_vals)` in `write_hist_vars`:
the weighted time-mean at depth `d` of a (time, depth) series. -/
def tracer_time_mean (w : List ℚ) (vals : ℕ → ℕ → ℚ) (d : ℕ) : ℚ :=
  ∑ t in Finset.range w.length, w.getD t 0 * vals t d

/-- `tracer_vals - tracer_vals_mean` in `write_hist_vars`. -/
def tracer_time_anom (w : List ℚ) (vals : ℕ → ℕ → ℚ) (t d : ℕ) : ℚ :=
  vals t d - tracer_time_mean w vals d

/-- `np.einsum("i,i...", time_weights, tracer_vals_anom ** 2)` in
`write_hist_vars` (the quantity whose square root is written as the time
standard deviation). -/
def tracer_time_var (w : List ℚ) (vals : ℕ → ℕ → ℚ) (d : ℕ) : ℚ :=
  ∑ t in Finset.range w.length, w.getD t 0 * (tracer_time_anom w vals t d) ^ 2

/-- `tracer_vals[-1, :] - tracer_vals[0, :]` in `write_hist_vars`, for a
series with `timelen` stored time samples. -/
def tracer_time_delta (timelen : ℕ) (vals : ℕ → ℕ → ℚ) (d : ℕ) : ℚ :=
  vals (timelen - 1) d - vals 0 d

/-- A list is elementwise nonnegative. -/
def allNonneg (l : List ℚ) : Prop := ∀ x ∈ l, 0 ≤ x

/-! ## netCDF source files and `_read_vals` (both variants) -/

/-- A self-describing array file: file-level dimensions, per-variable ordered
dimension-name tuples, and per-variable (flattened) values.  This models the
netCDF4 `Dataset` handle that `_read_vals` reads from. -/
structure NcFile where
  dims : List (String × ℕ)
  varDims : List (String × List String)
  varVals : List (String × List ℚ)

/-- Length of a named file-level dimension. -/
def dimLen (f : NcFile) (d : String) : ℕ := ((f.dims).lookup d).getD 0

/-- Modelled from the spec: the helper `extract_dimensions` of `src/utils.py`
is not under src/.  Per the spec it determines the stored dimensions of a
variable as the ordered mapping from dimension name to length, compared
byte-identically (name, length and order); a missing variable propagates the
underlying file-access KeyError, modelled as `none`. -/
def extract_dimensions (f : NcFile) (varname : String) : Option (List (String × ℕ)) :=
  (f.varDims.lookup varname).map (fun ds => ds.map (fun d => (d, dimLen f d)))

/-- The dimension-mismatch ValueError message of `_read_vals`
(`"not all vars have same dimensions" ", tracer_module_name=%s, fname=%s"`). -/
def mismatch_msg (tmn fname : String) : String :=
  "not all vars have same dimensions, tracer_module_name=" ++ tmn ++ ", fname=" ++ fname

/-- The unsupported-dimensionality ValueError message of `_read_vals`
(the two literals are concatenated without a separator in the source). -/
def ndim_msg (tmn fname : String) (ndim : ℕ) : String :=
  "ndim too large (for implementation of dot_prod)tracer_module_name=" ++ tmn ++
    ", fname=" ++ fname ++ ", ndim=" ++ toString ndim

/-- The check loop of `test_problem` `_read_vals`: every tracer variable must
have stored dimensions equal to those of the first tracer, else ValueError. -/
def check_same_dims (f : NcFile) (dimensions : List (String × ℕ)) (tmn fname : String) :
    List String → Except PyError Unit
  | [] => .ok ()
  | t :: rest =>
    match extract_dimensions f t with
    | none => .error (.keyError t)
    | some d =>
      if d = dimensions then check_same_dims f dimensions tmn fname rest
      else .error (.valueError (mismatch_msg tmn fname))

/-- The read loop of `test_problem` `_read_vals`: collect each tracer's
values. -/
def read_tracer_vals (f : NcFile) : List String → Except PyError (List (List ℚ))
  | [] => .ok []
  | t :: rest =>
    match f.varVals.lookup t with
    | none => .error (.keyError t)
    | some v =>
      match read_tracer_vals f rest with
      | .error e => .error e
      | .ok vs => .ok (v :: vs)

/-- The on-disk-source branch of `test_problem` `TracerModuleState._read_vals`:
take the dimensions of the first tracer's variable, check all tracers have the
same stored dimensions, reject more than 3 dimensions, then read all values. -/
def read_vals_file (tracer_names : List String) (tmn fname : String) (f : NcFile) :
    Except PyError (List (List ℚ) × List (String × ℕ)) :=
  match tracer_names with
  | [] => .error .indexError
  | t0 :: _ =>
    match extract_dimensions f t0 with
    | none => .error (.keyError t0)
    | some dimensions =>
      match check_same_dims f dimensions tmn fname tracer_names with
      | .error e => .error e
      | .ok _ =>
        if dimensions.length > 3 then
          .error (.valueError (ndim_msg tmn fname dimensions.length))
        else
          match read_tracer_vals f tracer_names with
          | .error e => .error e
          | .ok vals => .ok (vals, dimensions)

/-- The check loop of `cime_pop` `_read_vals`: compares the ordered
dimension-NAME tuples (`fptr.variables[name + "_CUR"].dimensions`) of each
suffixed tracer variable against the first one. -/
def check_same_dimnames (f : NcFile) (dims0 : List String) (tmn fname : String) :
    List String → Except PyError Unit
  | [] => .ok ()
  | t :: rest =>
    match f.varDims.lookup (t ++ "_CUR") with
    | none => .error (.keyError (t ++ "_CUR"))
    | some d =>
      if d = dims0 then check_same_dimnames f dims0 tmn fname rest
      else .error (.valueError (mismatch_msg tmn fname))

/-- The read loop of `cime_pop` `_read_vals` (variables carry the `_CUR`
snapshot suffix). -/
def read_tracer_vals_cur (f : NcFile) : List String → Except PyError (List (List ℚ))
  | [] => .ok []
  | t :: rest =>
    match f.varVals.lookup (t ++ "_CUR") with
    | none => .error (.keyError (t ++ "_CUR"))
    | some v =>
      match read_tracer_vals_cur f rest with
      | .error e => .error e
      | .ok vs => .ok (v :: vs)

/-- `cime_pop` `TracerModuleState._read_vals`: dims come from the first
tracer's `_CUR` variable (`{dim.name: dim.size for dim in var0.get_dims()}`),
the consistency check compares dimension-name tuples, dimensionality above 3
is rejected, then all `_CUR` values are read. -/
def read_vals_cime (tracer_names : List String) (tmn fname : String) (f : NcFile) :
    Except PyError (List (List ℚ) × List (String × ℕ)) :=
  match tracer_names with
  | [] => .error .indexError
  | t0 :: _ =>
    match f.varDims.lookup (t0 ++ "_CUR") with
    | none => .error (.keyError (t0 ++ "_CUR"))
    | some dims0 =>
      match check_same_dimnames f dims0 tmn fname tracer_names with
      | .error e => .error e
      | .ok _ =>
        let dims := dims0.map (fun d => (d, dimLen f d))
        if dims.length > 3 then
          .error (.valueError (ndim_msg tmn fname dims.length))
        else
          match read_tracer_vals_cur f tracer_names with
          | .error e => .error e
          | .ok vals => .ok (vals, dims)

/-! ## The two-phase dump protocol (both variants) -/

/-- The mutable state of an open, writable netCDF file handle. -/
structure NcState where
  dims : List (String × ℕ)
  varDefs : List (String × List String)
  varVals : List (String × List ℚ)

/-- Modelled from the spec: `create_dimensions_verify` of `src/utils.py` is
not under src/.  Per the spec the define phase creates all dimensions,
skipping ones that already exist with a matching length and failing if an
existing dimension has a conflicting length. -/
def create_dimensions_verify : NcState → List (String × ℕ) → Except PyError NcState
  | st, [] => .ok st
  | st, (d, n) :: rest =>
    match st.dims.lookup d with
    | some m =>
      if m = n then create_dimensions_verify st rest
      else .error (.valueError ("dimension " ++ d ++ " has conflicting length"))
    | none => create_dimensions_verify { st with dims := st.dims ++ [(d, n)] } rest

/-- Modelled from the spec: `create_dimension_exist_okay` of `src/utils.py`
(used by the `cime_pop` define phase), with the same exists-okay semantics for
a single dimension. -/
def create_dimension_exist_okay (st : NcState) (dimname : String) (dimlen : ℕ) :
    Except PyError NcState :=
  match st.dims.lookup dimname with
  | some m =>
    if m = dimlen then .ok st
    else .error (.valueError ("dimension " ++ dimname ++ " has conflicting length"))
  | none => .ok { st with dims := st.dims ++ [(dimname, dimlen)] }

/-- The per-dimension loop of the `cime_pop` define phase. -/
def create_dims_loop : NcState → List (String × ℕ) → Except PyError NcState
  | st, [] => .ok st
  | st, (d, n) :: rest =>
    match create_dimension_exist_okay st d n with
    | .error e => .error e
    | .ok st2 => create_dims_loop st2 rest

/-- Modelled from the spec: `create_vars` of `src/utils.py` declares the given
variables (name and dimension tuple) in the file. -/
def create_vars (st : NcState) (vars_metadata : List (String × List String)) : NcState :=
  { st with varDefs := st.varDefs ++ vars_metadata }

/-- Assignment `fptr.variables[name][:] = v`. -/
def setVar (st : NcState) (name : String) (v : List ℚ) : NcState :=
  { st with varVals := (name, v) :: st.varVals }

/-- `SpatialAxis.dump_write`: writes mid, bounds, edges and delta. -/
def SpatialAxis.dump_write (ax : SpatialAxis) (st : NcState) : NcState :=
  setVar
    (setVar
      (setVar (setVar st ax.axisname ax.mid) (ax.axisname ++ "_bounds") ax.bounds_vals)
      (ax.axisname ++ "_edges") ax.edges)
    (ax.axisname ++ "_delta") ax.delta

/-- The tracer write loop of `test_problem` `dump`
(`fptr.variables[tracer_name][:] = self._vals[tracer_ind, :]`). -/
def write_tracers (st : NcState) (tracer_names : List String) (vals : List (List ℚ)) :
    NcState :=
  (List.zip tracer_names vals).foldl (fun s p => setVar s p.1 p.2) st

/-- `test_problem` `TracerModuleState.dump`: two-phase define/write against an
open handle; any other action tag raises `ValueError(("unknown action=%s",
action))` (the message is a tuple because of the comma in the source). -/
def dump_test_problem (tracer_names : List String) (dimensions : List (String × ℕ))
    (vals : List (List ℚ)) (depth : SpatialAxis) (st : NcState) (action : String) :
    Except PyError NcState :=
  if action = "define" then
    match create_dimensions_verify st dimensions with
    | .error e => .error e
    | .ok st1 =>
      match create_dimensions_verify st1 depth.dump_dimensions with
      | .error e => .error e
      | .ok st2 =>
        let st3 := if (st2.varDefs.lookup depth.axisname).isSome then st2
                   else create_vars st2 depth.dump_vars_metadata
        .ok (create_vars st3 (tracer_names.map (fun t => (t, dimensions.map Prod.fst))))
  else if action = "write" then
    .ok (write_tracers (depth.dump_write st) tracer_names vals)
  else .error (.valueErrorTuple "unknown action=%s" action)

/-- `cime_pop` `TracerModuleState.dump`: defines/writes `_CUR` and `_OLD`
variables per tracer; any other action tag raises
`ValueError(("unknown action=", action))`. -/
def dump_cime_pop (tracer_names : List String) (dims : List (String × ℕ))
    (vals : List (List ℚ)) (st : NcState) (action : String) :
    Except PyError NcState :=
  if action = "define" then
    match create_dims_loop st dims with
    | .error e => .error e
    | .ok st1 =>
      .ok (create_vars st1
        ((tracer_names.map (fun t =>
          [(t ++ "_CUR", dims.map Prod.fst), (t ++ "_OLD", dims.map Prod.fst)])).flatten))
  else if action = "write" then
    .ok ((List.zip tracer_names vals).foldl
      (fun s p => setVar (setVar s (p.1 ++ "_CUR") p.2) (p.1 ++ "_OLD") p.2) st)
  else .error (.valueErrorTuple "unknown action=" action)

end NK

namespace NK

/-! ## Helper lemmas: the stretching function and generated thicknesses -/

lemma stretch_fcn_neg (x : ℚ) : stretch_fcn (-x) = - stretch_fcn x := by
  unfold stretch_fcn; ring

lemma stretch_fcn_one : stretch_fcn 1 = 1 := by norm_num [stretch_fcn]

lemma stretch_fcn_neg_one : stretch_fcn (-1) = -1 := by norm_num [stretch_fcn]

/-- For samples at or left of the right endpoint, the stretching function is
at most 1: `1 - S(x) = (1/8) (1-x)^3 (3 x^2 + 9 x + 8)` and the quadratic is
positive. -/
lemma stretch_fcn_le {x : ℚ} (hx : x ≤ 1) : stretch_fcn x ≤ 1 := by
  have hq : (0:ℚ) ≤ 3 * x ^ 2 + 9 * x + 8 := by nlinarith [sq_nonneg (x + 3/2)]
  have key : (0:ℚ) ≤ (1 - x) ^ 3 * (3 * x ^ 2 + 9 * x + 8) :=
    mul_nonneg (pow_nonneg (by linarith) 3) hq
  have hexp : stretch_fcn x = 1 - (1/8) * ((1 - x) ^ 3 * (3 * x ^ 2 + 9 * x + 8)) := by
    unfold stretch_fcn; ring
  linarith

/-- For samples at or right of the left endpoint, the stretching function is
at least -1: `1 + S(x) = (1/8) (1+x)^3 (3 x^2 - 9 x + 8)`. -/
lemma stretch_fcn_ge {x : ℚ} (hx : -1 ≤ x) : -1 ≤ stretch_fcn x := by
  have hq : (0:ℚ) ≤ 3 * x ^ 2 - 9 * x + 8 := by nlinarith [sq_nonneg (x - 3/2)]
  have key : (0:ℚ) ≤ (1 + x) ^ 3 * (3 * x ^ 2 - 9 * x + 8) :=
    mul_nonneg (pow_nonneg (by linarith) 3) hq
  have hexp : stretch_fcn x = (1/8) * ((1 + x) ^ 3 * (3 * x ^ 2 - 9 * x + 8)) - 1 := by
    unfold stretch_fcn; ring
  linarith

lemma coord_ge {n : ℕ} (hn : 1 ≤ n) (i : ℕ) : -1 ≤ coord n i := by
  unfold coord
  rcases eq_or_lt_of_le hn with h1 | h1
  · have : n = 1 := h1.symm
    subst this
    norm_num
  · have h2 : 2 ≤ n := h1
    have hpos : (0:ℚ) < (n:ℚ) - 1 := by
      have : (2:ℚ) ≤ (n:ℚ) := by exact_mod_cast h2
      linarith
    have : 0 ≤ (i:ℚ) * (2 / ((n:ℚ) - 1)) := by positivity
    linarith

lemma coord_le {n i : ℕ} (hn : 1 ≤ n) (hi : i < n) : coord n i ≤ 1 := by
  rcases eq_or_lt_of_le hn with h1 | h1
  · have : n = 1 := h1.symm
    subst this
    have : i = 0 := by omega
    subst this
    norm_num [coord]
  · have h2 : 2 ≤ n := h1
    have hne : (0:ℚ) < (n:ℚ) - 1 := by
      have : (2:ℚ) ≤ (n:ℚ) := by exact_mod_cast h2
      linarith
    have hle : (i:ℚ) ≤ (n:ℚ) - 1 := by
      have : (i:ℚ) + 1 ≤ (n:ℚ) := by exact_mod_cast hi
      linarith
    unfold coord
    have step : (i:ℚ) * (2 / ((n:ℚ) - 1)) ≤ ((n:ℚ) - 1) * (2 / ((n:ℚ) - 1)) := by
      apply mul_le_mul_of_nonneg_right hle
      exact le_of_lt (div_pos (by norm_num) hne)
    have hcancel : ((n:ℚ) - 1) * (2 / ((n:ℚ) - 1)) = 2 := by
      field_simp
    linarith [step, hcancel ▸ step]

lemma coord_zero {n : ℕ} : coord n 0 = -1 := by
  unfold coord; norm_num

lemma coord_last {n : ℕ} (hn : 2 ≤ n) : coord n (n - 1) = 1 := by
  have h1 : (1:ℕ) ≤ n := le_trans (by norm_num) hn
  have hcast : ((n - 1 : ℕ) : ℚ) = (n:ℚ) - 1 := by
    push_cast [Nat.cast_sub h1]
    ring
  have hne : (n:ℚ) - 1 ≠ 0 := by
    have : (2:ℚ) ≤ (n:ℚ) := by exact_mod_cast hn
    intro h; nlinarith
  unfold coord
  rw [hcast]
  field_simp
  norm_num

lemma coord_reflect {n : ℕ} (hn : 2 ≤ n) {i : ℕ} (hi : i < n) :
    coord n (n - 1 - i) = - coord n i := by
  have h1 : (1:ℕ) ≤ n := le_trans (by norm_num) hn
  have hle : i ≤ n - 1 := Nat.le_sub_one_of_lt hi
  have hcast : ((n - 1 - i : ℕ) : ℚ) = (n : ℚ) - 1 - i := by
    push_cast [Nat.cast_sub hle, Nat.cast_sub h1]
    ring
  have hne : (n : ℚ) - 1 ≠ 0 := by
    have : (2:ℚ) ≤ (n : ℚ) := by exact_mod_cast hn
    intro h; nlinarith
  unfold coord
  rw [hcast]
  field_simp
  ring

/-- The stretching samples sum to zero for any `nlevs ≥ 2` (odd symmetry about
the grid centre). -/
lemma stretch_sum_zero {n : ℕ} (hn : 2 ≤ n) :
    ∑ i in Finset.range n, stretch_fcn (coord n i) = 0 := by
  have h := Finset.sum_range_reflect (fun i => stretch_fcn (coord n i)) n
  have h2 : ∀ j ∈ Finset.range n,
      stretch_fcn (coord n (n - 1 - j)) = - stretch_fcn (coord n j) := by
    intro j hj
    rw [coord_reflect hn (Finset.mem_range.mp hj), stretch_fcn_neg]
  rw [Finset.sum_congr rfl h2, Finset.sum_neg_distrib] at h
  linarith

lemma sum_delta {n : ℕ} (ds : AxisDefn) (hds : ds.nlevs = n) (hn : 2 ≤ n) :
    ∑ i in Finset.range n, delta ds i = ds.edge_end - ds.edge_start := by
  subst hds
  unfold delta
  rw [Finset.sum_add_distrib, Finset.sum_const, ← Finset.mul_sum,
    stretch_sum_zero hn, mul_zero, add_zero, Finset.card_range]
  unfold delta_avg
  have hne : (ds.nlevs : ℚ) ≠ 0 := by
    have : (2:ℚ) ≤ (ds.nlevs : ℚ) := by exact_mod_cast hn
    intro h; nlinarith
  field_simp

lemma getD_range_map (f : ℕ → ℚ) {n k : ℕ} (h : k < n) :
    ((List.range n).map f).getD k 0 = f k := by
  rw [List.getD_eq_getElem _ _ (by simpa using h)]
  simp

lemma delta_avg_pos (ds : AxisDefn) (hn : 1 ≤ ds.nlevs)
    (hse : ds.edge_start < ds.edge_end) : 0 < delta_avg ds := by
  unfold delta_avg
  have h1 : (0:ℚ) < (ds.nlevs : ℚ) := by
    have : (1:ℚ) ≤ (ds.nlevs : ℚ) := by exact_mod_cast hn
    linarith
  have h2 : (0:ℚ) < ds.edge_end - ds.edge_start := by linarith
  positivity

lemma stretch_factor_nonneg (ds : AxisDefn) (havg : 0 ≤ delta_avg ds)
    (hr : 1 ≤ ds.delta_ratio_max) : 0 ≤ stretch_factor ds := by
  unfold stretch_factor
  apply div_nonneg (mul_nonneg havg (by linarith)) (by linarith)

lemma avg_sub_sf (ds : AxisDefn) (hr : 1 ≤ ds.delta_ratio_max) :
    delta_avg ds - stretch_factor ds = delta_avg ds * 2 / (ds.delta_ratio_max + 1) := by
  unfold stretch_factor
  have hne : ds.delta_ratio_max + 1 ≠ 0 := by intro h; nlinarith
  field_simp
  ring

lemma avg_add_sf (ds : AxisDefn) (hr : 1 ≤ ds.delta_ratio_max) :
    delta_avg ds + stretch_factor ds
      = delta_avg ds * (2 * ds.delta_ratio_max) / (ds.delta_ratio_max + 1) := by
  unfold stretch_factor
  have hne : ds.delta_ratio_max + 1 ≠ 0 := by intro h; nlinarith
  field_simp
  ring

lemma delta_ge (ds : AxisDefn) (hn : 1 ≤ ds.nlevs) (hr : 1 ≤ ds.delta_ratio_max)
    (hse : ds.edge_start < ds.edge_end) (i : ℕ) :
    delta_avg ds - stretch_factor ds ≤ delta ds i := by
  have hsf := stretch_factor_nonneg ds (le_of_lt (delta_avg_pos ds hn hse)) hr
  have hS := stretch_fcn_ge (coord_ge hn i)
  unfold delta
  nlinarith

lemma delta_le (ds : AxisDefn) (hn : 1 ≤ ds.nlevs) (hr : 1 ≤ ds.delta_ratio_max)
    (hse : ds.edge_start < ds.edge_end) {i : ℕ} (hi : i < ds.nlevs) :
    delta ds i ≤ delta_avg ds + stretch_factor ds := by
  have hsf := stretch_factor_nonneg ds (le_of_lt (delta_avg_pos ds hn hse)) hr
  have hS := stretch_fcn_le (coord_le hn hi)
  unfold delta
  nlinarith

lemma delta_pos (ds : AxisDefn) (hn : 1 ≤ ds.nlevs) (hr : 1 ≤ ds.delta_ratio_max)
    (hse : ds.edge_start < ds.edge_end) (i : ℕ) : 0 < delta ds i := by
  have havg := delta_avg_pos ds hn hse
  have hlow : 0 < delta_avg ds - stretch_factor ds := by
    rw [avg_sub_sf ds hr]
    have : (0:ℚ) < ds.delta_ratio_max + 1 := by linarith
    positivity
  linarith [delta_ge ds hn hr hse i]

end NK

namespace NK

/-! ## Claim C1 -/

/-- Claim C1, amended to `nlevs >= 2`: for a parametric axis definition with
`nlevs >= 2` and `delta_ratio_max >= 1`, the edges generated by `_gen_edges`
are the cumulative sum of the thicknesses starting at `edge_start`, the final
edge equals `edge_end`, and `sum(delta) = edge_end - edge_start` — exactly, in
the rational model.  (As stated over `nlevs >= 1` the claim fails: see the
counterexample at `nlevs = 1`, where the sole linspace sample is -1 and the
stretching correction does not cancel.) -/
theorem C1_edges_cumsum_end (ds : AxisDefn) (h1 : 2 ≤ ds.nlevs)
    (h2 : 1 ≤ ds.delta_ratio_max) (es : List ℚ) (hg : gen_edges ds = .ok es) :
    es.getD ds.nlevs 0 = ds.edge_end ∧
    ∑ i in Finset.range ds.nlevs, delta ds i = ds.edge_end - ds.edge_start := by
  have hsum := sum_delta ds rfl h1
  rw [gen_edges, if_neg (not_lt.mpr h2)] at hg
  injection hg with h
  subst h
  refine ⟨?_, hsum⟩
  rw [getD_range_map _ (Nat.lt_succ_self _)]
  unfold edge
  rw [hsum]
  ring

/-- Claim C1 counterexample: the definition `{nlevs: 1, edge_start: 0.0,
edge_end: 1.0, delta_ratio_max: 3.0}` is valid per the claim (`nlevs >= 1`,
`delta_ratio_max >= 1`, increasing edge interval), `_gen_edges` succeeds, yet
the final edge is 0.5, not `edge_end = 1` — an exact failure, not rounding. -/
theorem C1_counterexample :
    1 ≤ (AxisDefn.mk 1 0 1 3).nlevs ∧ 1 ≤ (AxisDefn.mk 1 0 1 3).delta_ratio_max ∧
    (AxisDefn.mk 1 0 1 3).edge_start < (AxisDefn.mk 1 0 1 3).edge_end ∧
    gen_edges (AxisDefn.mk 1 0 1 3) = .ok [0, 1/2] ∧
    ([0, 1/2] : List ℚ).getD (AxisDefn.mk 1 0 1 3).nlevs 0 ≠ (AxisDefn.mk 1 0 1 3).edge_end := by
  refine ⟨by norm_num, by norm_num, by norm_num, ?_, ?_⟩
  · norm_num [gen_edges, List.range_succ, edge, Finset.sum_range_succ, delta, delta_avg,
      stretch_factor, stretch_fcn, coord]
  · norm_num [List.getD_cons_succ, List.getD_cons_zero]

/-- Witness for C1 at the concrete definition `{nlevs: 2, 0 -> 1, ratio 3}`,
whose generated edges are `[0, 1/4, 1]`. -/
theorem C1_witness :
    ([0, 1/4, 1] : List ℚ).getD (AxisDefn.mk 2 0 1 3).nlevs 0 = (AxisDefn.mk 2 0 1 3).edge_end ∧
    ∑ i in Finset.range (AxisDefn.mk 2 0 1 3).nlevs, delta (AxisDefn.mk 2 0 1 3) i
      = (AxisDefn.mk 2 0 1 3).edge_end - (AxisDefn.mk 2 0 1 3).edge_start :=
  C1_edges_cumsum_end (AxisDefn.mk 2 0 1 3) (by norm_num) (by norm_num) [0, 1/4, 1]
    (by norm_num [gen_edges, List.range_succ, edge, Finset.sum_range_succ, delta, delta_avg,
      stretch_factor, stretch_fcn, coord])

/-! ## Claim C3 -/

/-- Claim C3, amended: the generated thickness sequence is NOT symmetric in
reverse order; because the stretching function is odd about the grid centre,
the true relation is anti-symmetry about the mean:
`delta[i] + delta[N-1-i] = 2 * delta_avg` for every `i < N`, `N = nlevs >= 2`. -/
theorem C3_thickness_antisymmetry (ds : AxisDefn) (h1 : 2 ≤ ds.nlevs)
    (i : ℕ) (hi : i < ds.nlevs) :
    delta ds i + delta ds (ds.nlevs - 1 - i) = 2 * delta_avg ds := by
  unfold delta
  rw [coord_reflect h1 hi, stretch_fcn_neg]
  ring

/-- Claim C3 counterexample: for the spec's own concrete scenario
`{nlevs: 4, 0 -> 100, ratio 3}`, `delta[0] = 25/2` and `delta[3] = 75/2`,
so `delta[0] != delta[N-1-0]`: the claimed reverse-order symmetry fails. -/
theorem C3_counterexample :
    1 ≤ (AxisDefn.mk 4 0 100 3).nlevs ∧ 1 ≤ (AxisDefn.mk 4 0 100 3).delta_ratio_max ∧
    (AxisDefn.mk 4 0 100 3).edge_start < (AxisDefn.mk 4 0 100 3).edge_end ∧
    delta (AxisDefn.mk 4 0 100 3) 0
      ≠ delta (AxisDefn.mk 4 0 100 3) ((AxisDefn.mk 4 0 100 3).nlevs - 1 - 0) := by
  refine ⟨by norm_num, by norm_num, by norm_num, ?_⟩
  norm_num [delta, delta_avg, stretch_factor, stretch_fcn, coord]

/-- Witness for C3 at `{nlevs: 4, 0 -> 100, ratio 3}`, `i = 0`. -/
theorem C3_witness :
    delta (AxisDefn.mk 4 0 100 3) 0
        + delta (AxisDefn.mk 4 0 100 3) ((AxisDefn.mk 4 0 100 3).nlevs - 1 - 0)
      = 2 * delta_avg (AxisDefn.mk 4 0 100 3) :=
  C3_thickness_antisymmetry (AxisDefn.mk 4 0 100 3) (by norm_num) 0 (by norm_num)

/-! ## Claim C4 -/

/-- Claim C4, amended: a generated axis satisfies `len(axis) = len(edges) - 1
= nlevs` always; the positivity `delta[i] > 0` (edges strictly increasing)
holds provided `edge_start < edge_end` — the code never checks the edge
ordering, so a successfully constructed axis with `edge_end < edge_start`
violates the claimed invariant (see the counterexample). -/
theorem C4_axis_invariant (ds : AxisDefn) (h1 : 1 ≤ ds.nlevs)
    (h2 : 1 ≤ ds.delta_ratio_max) (h3 : ds.edge_start < ds.edge_end)
    (es : List ℚ) (hg : gen_edges ds = .ok es) :
    es.length - 1 = ds.nlevs ∧ List.Chain' (· < ·) es := by
  rw [gen_edges, if_neg (not_lt.mpr h2)] at hg
  injection hg with h
  subst h
  constructor
  · simp
  · rw [List.chain'_iff_get]
    intro i hi
    simp only [List.length_map, List.length_range] at hi
    have hi2 : i < ds.nlevs := by omega
    simp only [List.get_eq_getElem, List.getElem_map, List.getElem_range]
    unfold edge
    rw [Finset.sum_range_succ]
    have := delta_pos ds h1 h2 h3 i
    linarith

/-- Claim C4 counterexample: `{nlevs: 1, edge_start: 0, edge_end: -1,
delta_ratio_max: 1}` constructs successfully (no error is raised) but its
edges `[0, -1]` are strictly decreasing, so `delta[0] = -1 < 0`: the claimed
invariant does not hold for every successfully constructed axis. -/
theorem C4_counterexample :
    gen_edges (AxisDefn.mk 1 0 (-1) 1) = .ok [0, -1] ∧
    ¬ List.Chain' (· < ·) ([0, -1] : List ℚ) := by
  constructor
  · norm_num [gen_edges, List.range_succ, edge, Finset.sum_range_succ, delta, delta_avg,
      stretch_factor, stretch_fcn, coord]
  · norm_num [List.chain'_cons]

/-- Witness for C4 at `{nlevs: 2, 0 -> 1, ratio 3}` with edges `[0, 1/4, 1]`. -/
theorem C4_witness :
    ([0, 1/4, 1] : List ℚ).length - 1 = (AxisDefn.mk 2 0 1 3).nlevs ∧
    List.Chain' (· < ·) ([0, 1/4, 1] : List ℚ) :=
  C4_axis_invariant (AxisDefn.mk 2 0 1 3) (by norm_num) (by norm_num) (by norm_num)
    [0, 1/4, 1]
    (by norm_num [gen_edges, List.range_succ, edge, Finset.sum_range_succ, delta, delta_avg,
      stretch_factor, stretch_fcn, coord])

end NK

namespace NK

/-! ## Claim C2: the max/min thickness ratio -/

lemma foldl_max_eq : ∀ (l : List ℚ) (a M : ℚ), (a = M ∨ M ∈ l) → a ≤ M →
    (∀ x ∈ l, x ≤ M) → l.foldl max a = M
  | [], a, M, hmem, _, _ => by
    rcases hmem with h | h
    · simpa using h
    · simp at h
  | b :: l, a, M, hmem, hle, hub => by
    have hb : b ≤ M := hub b (List.mem_cons_self b l)
    show l.foldl max (max a b) = M
    apply foldl_max_eq l (max a b) M ?_ (max_le hle hb)
      (fun x hx => hub x (List.mem_cons_of_mem b hx))
    rcases hmem with h | h
    · left; rw [h]; exact max_eq_left hb
    · rcases List.mem_cons.mp h with h1 | h1
      · left; rw [h1] at hle ⊢; exact max_eq_right hle
      · right; exact h1

lemma foldl_min_eq : ∀ (l : List ℚ) (a M : ℚ), (a = M ∨ M ∈ l) → M ≤ a →
    (∀ x ∈ l, M ≤ x) → l.foldl min a = M
  | [], a, M, hmem, _, _ => by
    rcases hmem with h | h
    · simpa using h
    · simp at h
  | b :: l, a, M, hmem, hle, hlb => by
    have hb : M ≤ b := hlb b (List.mem_cons_self b l)
    show l.foldl min (min a b) = M
    apply foldl_min_eq l (min a b) M ?_ (le_min hle hb)
      (fun x hx => hlb x (List.mem_cons_of_mem b hx))
    rcases hmem with h | h
    · left; rw [h]; exact min_eq_left hb
    · rcases List.mem_cons.mp h with h1 | h1
      · left; rw [h1] at hle ⊢; exact min_eq_right hle
      · right; exact h1

lemma np_max_eq {l : List ℚ} {M : ℚ} (hmem : M ∈ l) (hub : ∀ x ∈ l, x ≤ M) :
    np_max l = M := by
  cases l with
  | nil => simp at hmem
  | cons a rest =>
    show rest.foldl max a = M
    apply foldl_max_eq rest a M ?_ (hub a (List.mem_cons_self a rest))
      (fun x hx => hub x (List.mem_cons_of_mem a hx))
    rcases List.mem_cons.mp hmem with h | h
    · left; exact h.symm
    · right; exact h

lemma np_min_eq {l : List ℚ} {M : ℚ} (hmem : M ∈ l) (hlb : ∀ x ∈ l, M ≤ x) :
    np_min l = M := by
  cases l with
  | nil => simp at hmem
  | cons a rest =>
    show rest.foldl min a = M
    apply foldl_min_eq rest a M ?_ (hlb a (List.mem_cons_self a rest))
      (fun x hx => hlb x (List.mem_cons_of_mem a hx))
    rcases List.mem_cons.mp hmem with h | h
    · left; exact h.symm
    · right; exact h

lemma delta_zero_eq (ds : AxisDefn) :
    delta ds 0 = delta_avg ds - stretch_factor ds := by
  unfold delta
  rw [coord_zero, stretch_fcn_neg_one]
  ring

lemma delta_last_eq (ds : AxisDefn) (h1 : 2 ≤ ds.nlevs) :
    delta ds (ds.nlevs - 1) = delta_avg ds + stretch_factor ds := by
  unfold delta
  rw [coord_last h1, stretch_fcn_one]
  ring

lemma np_max_deltaList (ds : AxisDefn) (h1 : 2 ≤ ds.nlevs)
    (h2 : 1 ≤ ds.delta_ratio_max) (h3 : ds.edge_start < ds.edge_end) :
    np_max (deltaList ds) = delta_avg ds + stretch_factor ds := by
  have h1' : 1 ≤ ds.nlevs := le_trans (by norm_num) h1
  apply np_max_eq
  · rw [← delta_last_eq ds h1]
    exact List.mem_map.mpr ⟨ds.nlevs - 1, List.mem_range.mpr (by omega), rfl⟩
  · intro x hx
    obtain ⟨i, hi, rfl⟩ := List.mem_map.mp hx
    exact delta_le ds h1' h2 h3 (List.mem_range.mp hi)

lemma np_min_deltaList (ds : AxisDefn) (h1 : 2 ≤ ds.nlevs)
    (h2 : 1 ≤ ds.delta_ratio_max) (h3 : ds.edge_start < ds.edge_end) :
    np_min (deltaList ds) = delta_avg ds - stretch_factor ds := by
  have h1' : 1 ≤ ds.nlevs := le_trans (by norm_num) h1
  apply np_min_eq
  · rw [← delta_zero_eq ds]
    exact List.mem_map.mpr ⟨0, List.mem_range.mpr (by omega), rfl⟩
  · intro x hx
    obtain ⟨i, _, rfl⟩ := List.mem_map.mp hx
    exact delta_ge ds h1' h2 h3 i

/-- Claim C2, amended to `nlevs >= 2` (with `edge_start < edge_end`): the
thicknesses generated by `_gen_edges` satisfy
`max(delta) / min(delta) = delta_ratio_max` — exactly, in the rational
model.  (As stated over `nlevs >= 1` the claim fails: at `nlevs = 1` there is
a single thickness, so the ratio is 1 for any requested `delta_ratio_max`;
see the counterexample.) -/
theorem C2_delta_ratio (ds : AxisDefn) (h1 : 2 ≤ ds.nlevs)
    (h2 : 1 ≤ ds.delta_ratio_max) (h3 : ds.edge_start < ds.edge_end) :
    np_max (deltaList ds) / np_min (deltaList ds) = ds.delta_ratio_max := by
  have h1' : 1 ≤ ds.nlevs := le_trans (by norm_num) h1
  have havg : 0 < delta_avg ds := delta_avg_pos ds h1' h3
  have hr1 : (0:ℚ) < ds.delta_ratio_max + 1 := by linarith
  rw [np_max_deltaList ds h1 h2 h3, np_min_deltaList ds h1 h2 h3,
    avg_add_sf ds h2, avg_sub_sf ds h2]
  have hpos : 0 < delta_avg ds * 2 / (ds.delta_ratio_max + 1) := by positivity
  rw [div_eq_iff (ne_of_gt hpos)]
  field_simp
  ring

/-- Claim C2 counterexample: `{nlevs: 1, 0 -> 1, ratio 3}` is valid per the
claim (`nlevs >= 1`, `delta_ratio_max >= 1`, increasing edge interval), but
the single generated thickness makes `max(delta)/min(delta) = 1`, not 3. -/
theorem C2_counterexample :
    1 ≤ (AxisDefn.mk 1 0 1 3).nlevs ∧ 1 ≤ (AxisDefn.mk 1 0 1 3).delta_ratio_max ∧
    (AxisDefn.mk 1 0 1 3).edge_start < (AxisDefn.mk 1 0 1 3).edge_end ∧
    np_max (deltaList (AxisDefn.mk 1 0 1 3)) / np_min (deltaList (AxisDefn.mk 1 0 1 3))
      ≠ (AxisDefn.mk 1 0 1 3).delta_ratio_max := by
  refine ⟨by norm_num, by norm_num, by norm_num, ?_⟩
  norm_num [np_max, np_min, deltaList, List.range_succ, delta, delta_avg,
    stretch_factor, stretch_fcn, coord]

/-- Witness for C2 at `{nlevs: 2, 0 -> 1, ratio 3}`. -/
theorem C2_witness :
    np_max (deltaList (AxisDefn.mk 2 0 1 3)) / np_min (deltaList (AxisDefn.mk 2 0 1 3))
      = (AxisDefn.mk 2 0 1 3).delta_ratio_max :=
  C2_delta_ratio (AxisDefn.mk 2 0 1 3) (by norm_num) (by norm_num) (by norm_num)

end NK

namespace NK

/-! ## Claim C6: the midpoint depth integral -/

lemma zipWith_mul_sum : ∀ (l1 l2 : List ℚ), l1.length = l2.length →
    (List.zipWith (fun x y => x * y) l1 l2).sum
      = ∑ i in Finset.range l1.length, l1.getD i 0 * l2.getD i 0
  | [], l2, _ => by simp
  | a :: t1, [], h => by simp at h
  | a :: t1, b :: t2, h => by
    have ht : t1.length = t2.length := by simpa using h
    have ih := zipWith_mul_sum t1 t2 ht
    simp only [List.zipWith_cons_cons, List.sum_cons, List.length_cons]
    rw [Finset.sum_range_succ', ih]
    simp [List.getD_cons_succ, List.getD_cons_zero, add_comm]

/-- Claim C6: for any array whose last axis has length `N = len(axis)` (the
length of the thickness array `delta`) and any batched leading axes (an
arbitrary index type `B`), `int_vals_mid` returns the last-axis-reduced sum
`sum_i delta[i] * vals[..., i]`. -/
theorem C6_int_vals_mid {B : Type} (delta : List ℚ) (vals : B → List ℚ) (b : B)
    (h : (vals b).length = delta.length) :
    int_vals_mid delta vals b
      = ∑ i in Finset.range delta.length, delta.getD i 0 * (vals b).getD i 0 := by
  unfold int_vals_mid
  exact zipWith_mul_sum delta (vals b) h.symm

/-- Witness for C6 on a batched (2-row) value array with `delta = [1, 2]`. -/
theorem C6_witness :
    int_vals_mid [1, 2] (fun j : ℕ => if j = 0 then [3, 4] else [5, 6]) 0
      = ∑ i in Finset.range ([1, 2] : List ℚ).length,
          ([1, 2] : List ℚ).getD i 0
            * ((fun j : ℕ => if j = 0 then [3, 4] else [5, 6]) 0).getD i 0 :=
  C6_int_vals_mid [1, 2] (fun j : ℕ => if j = 0 then [3, 4] else [5, 6]) 0 (by norm_num)

/-! ## Claim C10: the history time weights -/

lemma list_sum_range_map (f : ℕ → ℚ) : ∀ n : ℕ,
    ((List.range n).map f).sum = ∑ i in Finset.range n, f i
  | 0 => by simp
  | n + 1 => by
    rw [List.range_succ, List.map_append, List.sum_append, Finset.sum_range_succ,
      list_sum_range_map f n]
    simp

lemma hist_weight_sum {T : ℕ} (hT : 2 ≤ T) :
    ∑ i in Finset.range T, hist_weight T i = 1 := by
  have hne : ((T:ℚ) - 1) ≠ 0 := by
    have : (2:ℚ) ≤ (T:ℚ) := by exact_mod_cast hT
    intro h; nlinarith
  have h01 : (0:ℕ) ≠ T - 1 := by omega
  have point : ∀ i ∈ Finset.range T,
      hist_weight T i = 1 / ((T:ℚ) - 1)
        + ((if i = 0 then -(1 / (((T:ℚ) - 1) * 2)) else 0)
          + (if i = T - 1 then -(1 / (((T:ℚ) - 1) * 2)) else 0)) := by
    intro i _
    unfold hist_weight
    by_cases h0 : i = 0 <;> by_cases h1 : i = T - 1
    · exact absurd (h0 ▸ h1) h01
    · rw [if_pos (Or.inl h0), if_pos h0, if_neg h1]
      field_simp
      ring
    · rw [if_pos (Or.inr h1), if_neg h0, if_pos h1]
      field_simp
      ring
    · rw [if_neg (by tauto), if_neg h0, if_neg h1]
      ring
  rw [Finset.sum_congr rfl point, Finset.sum_add_distrib, Finset.sum_add_distrib,
    Finset.sum_const, Finset.card_range, Finset.sum_ite_eq' (Finset.range T) 0,
    Finset.sum_ite_eq' (Finset.range T) (T - 1)]
  rw [if_pos (Finset.mem_range.mpr (by omega)), if_pos (Finset.mem_range.mpr (by omega))]
  field_simp
  ring

lemma hist_weight_nonneg {T : ℕ} (hT : 2 ≤ T) (i : ℕ) : 0 ≤ hist_weight T i := by
  have hpos : (0:ℚ) < (T:ℚ) - 1 := by
    have : (2:ℚ) ≤ (T:ℚ) := by exact_mod_cast hT
    linarith
  unfold hist_weight
  split <;> positivity

lemma wlist_length (T : ℕ) : (wlist T).length = T := by
  unfold wlist
  simp

/-- Claim C10: for every stored time length `T >= 2`, `hist_time_mean_weights`
returns the uniform `1/(T-1)` weights with halved endpoints, which are
nonnegative and sum exactly to 1; for `T = 1` the expression
`1.0 / (timelen - 1)` raises ZeroDivisionError, so a single-sample series
cannot be processed. -/
theorem C10_weights (T : ℕ) (hT : 2 ≤ T) :
    hist_time_mean_weights T = .ok (wlist T) ∧ allNonneg (wlist T) ∧
    (wlist T).sum = 1 ∧
    hist_time_mean_weights 1 = .error .zeroDivisionError := by
  refine ⟨?_, ?_, ?_, ?_⟩
  · rw [hist_time_mean_weights, if_neg (by omega), if_neg (by omega)]
  · intro x hx
    obtain ⟨i, _, rfl⟩ := List.mem_map.mp hx
    exact hist_weight_nonneg hT i
  · rw [wlist, list_sum_range_map, hist_weight_sum hT]
  · rfl

/-- Witness for C10 at `T = 5` (the spec's concrete scenario: weights
`[1/8, 1/4, 1/4, 1/4, 1/8]`). -/
theorem C10_witness :
    hist_time_mean_weights 5 = .ok (wlist 5) ∧ allNonneg (wlist 5) ∧
    (wlist 5).sum = 1 ∧
    hist_time_mean_weights 1 = .error .zeroDivisionError :=
  C10_weights 5 (by norm_num)

end NK

namespace NK

/-! ## Claim C5: statistics of a constant-in-time series -/

lemma wlist_getD {T i : ℕ} (hi : i < T) : (wlist T).getD i 0 = hist_weight T i := by
  unfold wlist
  exact getD_range_map _ hi

/-- Claim C5: for a stored time length `T >= 2` and a series that is constant
in time (`vals t d = c d` for all stored samples `t < T`), the quantities
computed by `write_hist_vars` with the endpoint-halved `1/(T-1)` weights are:
time-mean `= c d`, time-anomaly identically zero, time-variance zero (hence
the written std-dev, its square root, zero), and time-delta (last sample
minus first) zero, at every depth `d`. -/
theorem C5_constant_series (T : ℕ) (hT : 2 ≤ T) (vals : ℕ → ℕ → ℚ) (c : ℕ → ℚ)
    (hconst : ∀ t < T, ∀ d, vals t d = c d) (w : List ℚ)
    (hw : hist_time_mean_weights T = .ok w) (t d : ℕ) (ht : t < T) :
    tracer_time_mean w vals d = c d ∧ tracer_time_anom w vals t d = 0 ∧
    tracer_time_var w vals d = 0 ∧
    Real.sqrt ((tracer_time_var w vals d : ℚ)) = 0 ∧
    tracer_time_delta T vals d = 0 := by
  rw [hist_time_mean_weights, if_neg (by omega), if_neg (by omega)] at hw
  injection hw with h
  subst h
  have hlen : (wlist T).length = T := wlist_length T
  have hsum : ∑ x in Finset.range T, (wlist T).getD x 0 = 1 := by
    have hcg : ∀ x ∈ Finset.range T, (wlist T).getD x 0 = hist_weight T x :=
      fun x hx => wlist_getD (Finset.mem_range.mp hx)
    rw [Finset.sum_congr rfl hcg]
    exact hist_weight_sum hT
  have hmean : tracer_time_mean (wlist T) vals d = c d := by
    unfold tracer_time_mean
    rw [hlen]
    have hcg : ∀ x ∈ Finset.range T,
        (wlist T).getD x 0 * vals x d = (wlist T).getD x 0 * c d := by
      intro x hx
      rw [hconst x (Finset.mem_range.mp hx) d]
    rw [Finset.sum_congr rfl hcg, ← Finset.sum_mul, hsum, one_mul]
  have hanom : ∀ s, s < T → tracer_time_anom (wlist T) vals s d = 0 := by
    intro s hs
    unfold tracer_time_anom
    rw [hconst s hs d, hmean]
    ring
  have hvar : tracer_time_var (wlist T) vals d = 0 := by
    unfold tracer_time_var
    rw [hlen]
    apply Finset.sum_eq_zero
    intro x hx
    rw [hanom x (Finset.mem_range.mp hx)]
    ring
  refine ⟨hmean, hanom t ht, hvar, ?_, ?_⟩
  · rw [hvar]
    simp
  · unfold tracer_time_delta
    rw [hconst (T - 1) (by omega) d, hconst 0 (by omega) d]
    ring

/-- Witness for C5: a 5-sample series constantly 3 at every depth. -/
theorem C5_witness :
    tracer_time_mean (wlist 5) (fun _ _ => 3) 0 = 3 ∧
    tracer_time_anom (wlist 5) (fun _ _ => 3) 2 0 = 0 ∧
    tracer_time_var (wlist 5) (fun _ _ => 3) 0 = 0 ∧
    Real.sqrt ((tracer_time_var (wlist 5) (fun _ _ => 3) 0 : ℚ)) = 0 ∧
    tracer_time_delta 5 (fun _ _ => 3) 0 = 0 :=
  C5_constant_series 5 (by norm_num) (fun _ _ => 3) (fun _ => 3)
    (fun _ _ _ => rfl) (wlist 5) (by rfl) 2 0 (by norm_num)

end NK

namespace NK

/-! ## Claims C7 and C8: the `_read_vals` consistency checks -/

lemma extract_isSome {f : NcFile} {t : String} (h : (f.varDims.lookup t).isSome) :
    (extract_dimensions f t).isSome := by
  cases hl : f.varDims.lookup t with
  | none => rw [hl] at h; simp at h
  | some ds => simp [extract_dimensions, hl]

lemma extract_injective {f : NcFile} {t t0 : String} {ds0 : List String}
    (h0 : f.varDims.lookup t0 = some ds0)
    (hne : f.varDims.lookup t ≠ f.varDims.lookup t0) :
    extract_dimensions f t ≠ extract_dimensions f t0 := by
  intro hcontra
  apply hne
  rw [h0]
  have he0 : extract_dimensions f t0 = some (ds0.map (fun d => (d, dimLen f d))) := by
    simp [extract_dimensions, h0]
  rw [he0] at hcontra
  unfold extract_dimensions at hcontra
  cases hl : f.varDims.lookup t with
  | none => rw [hl] at hcontra; simp at hcontra
  | some dst =>
    rw [hl] at hcontra
    have hmap : dst.map (fun d => (d, dimLen f d)) = ds0.map (fun d => (d, dimLen f d)) := by
      simpa using hcontra
    have hdst : dst = ds0 := by
      have h1 := congrArg (List.map Prod.fst) hmap
      simpa [List.map_map, Function.comp_def] using h1
    rw [hdst]

lemma check_same_dims_error (f : NcFile) (dims : List (String × ℕ)) (tmn fname : String) :
    ∀ l : List String, (∀ t ∈ l, (extract_dimensions f t).isSome) →
    (∃ t ∈ l, extract_dimensions f t ≠ some dims) →
    check_same_dims f dims tmn fname l = .error (.valueError (mismatch_msg tmn fname))
  | [], _, hex => by simp at hex
  | t :: rest, hpres, hex => by
    obtain ⟨d, hd⟩ := Option.isSome_iff_exists.mp (hpres t (List.mem_cons_self t rest))
    by_cases heq : d = dims
    · simp only [check_same_dims, hd, if_pos heq]
      apply check_same_dims_error f dims tmn fname rest
        (fun x hx => hpres x (List.mem_cons_of_mem t hx))
      obtain ⟨s, hs, hne⟩ := hex
      rcases List.mem_cons.mp hs with h1 | h1
      · exfalso
        apply hne
        rw [h1, hd, heq]
      · exact ⟨s, h1, hne⟩
    · simp only [check_same_dims, hd, if_neg heq]

lemma check_same_dims_ok (f : NcFile) (dims : List (String × ℕ)) (tmn fname : String) :
    ∀ l : List String, (∀ t ∈ l, extract_dimensions f t = some dims) →
    check_same_dims f dims tmn fname l = .ok ()
  | [], _ => rfl
  | t :: rest, h => by
    simp only [check_same_dims, h t (List.mem_cons_self t rest), if_pos]
    exact check_same_dims_ok f dims tmn fname rest
      (fun x hx => h x (List.mem_cons_of_mem t hx))

lemma check_same_dimnames_error (f : NcFile) (dims0 : List String) (tmn fname : String) :
    ∀ l : List String, (∀ t ∈ l, (f.varDims.lookup (t ++ "_CUR")).isSome) →
    (∃ t ∈ l, f.varDims.lookup (t ++ "_CUR") ≠ some dims0) →
    check_same_dimnames f dims0 tmn fname l = .error (.valueError (mismatch_msg tmn fname))
  | [], _, hex => by simp at hex
  | t :: rest, hpres, hex => by
    obtain ⟨d, hd⟩ := Option.isSome_iff_exists.mp (hpres t (List.mem_cons_self t rest))
    by_cases heq : d = dims0
    · simp only [check_same_dimnames, hd, if_pos heq]
      apply check_same_dimnames_error f dims0 tmn fname rest
        (fun x hx => hpres x (List.mem_cons_of_mem t hx))
      obtain ⟨s, hs, hne⟩ := hex
      rcases List.mem_cons.mp hs with h1 | h1
      · exfalso
        apply hne
        rw [h1, hd, heq]
      · exact ⟨s, h1, hne⟩
    · simp only [check_same_dimnames, hd, if_neg heq]

lemma check_same_dimnames_ok (f : NcFile) (dims0 : List String) (tmn fname : String) :
    ∀ l : List String, (∀ t ∈ l, f.varDims.lookup (t ++ "_CUR") = some dims0) →
    check_same_dimnames f dims0 tmn fname l = .ok ()
  | [], _ => rfl
  | t :: rest, h => by
    simp only [check_same_dimnames, h t (List.mem_cons_self t rest), if_pos]
    exact check_same_dimnames_ok f dims0 tmn fname rest
      (fun x hx => h x (List.mem_cons_of_mem t hx))

/-- Claim C7 (reason: the comparison helper `extract_dimensions` lives in
`src/utils.py`, outside src/, and is modelled from the spec as an ordered
byte-identical comparison): in both tracer-module variants, if some tracer's
stored dimension tuple differs from the first tracer's, `_read_vals` fails
with the ValueError whose message names the tracer module and file, before
any value is read — no truncation or broadcast is possible since the
function returns no values. -/
theorem C7_dimension_mismatch (f : NcFile) (tmn fname t0 : String) (rest : List String)
    (hpres : ∀ t ∈ t0 :: rest, (f.varDims.lookup t).isSome)
    (hpresC : ∀ t ∈ t0 :: rest, (f.varDims.lookup (t ++ "_CUR")).isSome)
    (hmm : ∃ t ∈ t0 :: rest, f.varDims.lookup t ≠ f.varDims.lookup t0)
    (hmmC : ∃ t ∈ t0 :: rest,
      f.varDims.lookup (t ++ "_CUR") ≠ f.varDims.lookup (t0 ++ "_CUR")) :
    read_vals_file (t0 :: rest) tmn fname f
        = .error (.valueError (mismatch_msg tmn fname)) ∧
    read_vals_cime (t0 :: rest) tmn fname f
        = .error (.valueError (mismatch_msg tmn fname)) := by
  constructor
  · obtain ⟨ds0, hds0⟩ := Option.isSome_iff_exists.mp (hpres t0 (List.mem_cons_self t0 rest))
    have hext0 : extract_dimensions f t0
        = some (ds0.map (fun d => (d, dimLen f d))) := by
      simp [extract_dimensions, hds0]
    have hcheck : check_same_dims f (ds0.map (fun d => (d, dimLen f d))) tmn fname
        (t0 :: rest) = .error (.valueError (mismatch_msg tmn fname)) := by
      apply check_same_dims_error f _ tmn fname (t0 :: rest)
        (fun t ht => extract_isSome (hpres t ht))
      obtain ⟨s, hs, hne⟩ := hmm
      refine ⟨s, hs, ?_⟩
      rw [← hext0]
      exact extract_injective hds0 hne
    simp only [read_vals_file, hext0, hcheck]
  · obtain ⟨ds0, hds0⟩ :=
      Option.isSome_iff_exists.mp (hpresC t0 (List.mem_cons_self t0 rest))
    have hcheck : check_same_dimnames f ds0 tmn fname (t0 :: rest)
        = .error (.valueError (mismatch_msg tmn fname)) := by
      apply check_same_dimnames_error f ds0 tmn fname (t0 :: rest) hpresC
      obtain ⟨s, hs, hne⟩ := hmmC
      refine ⟨s, hs, ?_⟩
      rw [← hds0]
      exact hne
    simp only [read_vals_cime, hds0, hcheck]

/-- Witness for C7: a two-tracer file whose tracers `a` and `b` are stored on
different dimensions (`x` of length 2 vs `y` of length 3). -/
theorem C7_witness :
    read_vals_file ["a", "b"] "tm" "state.nc"
        (NcFile.mk [("x", 2), ("y", 3)]
          [("a", ["x"]), ("b", ["y"]), ("a_CUR", ["x"]), ("b_CUR", ["y"])] [])
        = .error (.valueError (mismatch_msg "tm" "state.nc")) ∧
    read_vals_cime ["a", "b"] "tm" "state.nc"
        (NcFile.mk [("x", 2), ("y", 3)]
          [("a", ["x"]), ("b", ["y"]), ("a_CUR", ["x"]), ("b_CUR", ["y"])] [])
        = .error (.valueError (mismatch_msg "tm" "state.nc")) :=
  C7_dimension_mismatch
    (NcFile.mk [("x", 2), ("y", 3)]
      [("a", ["x"]), ("b", ["y"]), ("a_CUR", ["x"]), ("b_CUR", ["y"])] [])
    "tm" "state.nc" "a" ["b"]
    (by decide) (by decide) ⟨"b", by decide, by decide⟩ ⟨"b", by decide, by decide⟩

/-- Claim C8 (reason: dimension extraction uses the spec-modelled
`extract_dimensions` helper): in both variants, when every tracer variable is
stored on the same dimension tuple of more than 3 dimensions, `_read_vals`
raises the ValueError citing the unsupported dimensionality (with the ndim
count), for any tracer count >= 1. -/
theorem C8_ndim_too_large (f : NcFile) (tmn fname t0 : String) (rest : List String)
    (ds0 : List String)
    (hall : ∀ t ∈ t0 :: rest, f.varDims.lookup t = some ds0)
    (hallC : ∀ t ∈ t0 :: rest, f.varDims.lookup (t ++ "_CUR") = some ds0)
    (hlen : 3 < ds0.length) :
    read_vals_file (t0 :: rest) tmn fname f
        = .error (.valueError (ndim_msg tmn fname ds0.length)) ∧
    read_vals_cime (t0 :: rest) tmn fname f
        = .error (.valueError (ndim_msg tmn fname ds0.length)) := by
  have hmaplen : (ds0.map (fun d => (d, dimLen f d))).length = ds0.length :=
    List.length_map ds0 _
  constructor
  · have hext0 : extract_dimensions f t0
        = some (ds0.map (fun d => (d, dimLen f d))) := by
      simp [extract_dimensions, hall t0 (List.mem_cons_self t0 rest)]
    have hcheck : check_same_dims f (ds0.map (fun d => (d, dimLen f d))) tmn fname
        (t0 :: rest) = .ok () := by
      apply check_same_dims_ok
      intro t ht
      simp [extract_dimensions, hall t ht]
    simp only [read_vals_file, hext0, hcheck, hmaplen, gt_iff_lt, if_pos hlen]
  · have hds0 : f.varDims.lookup (t0 ++ "_CUR") = some ds0 :=
      hallC t0 (List.mem_cons_self t0 rest)
    have hcheck : check_same_dimnames f ds0 tmn fname (t0 :: rest) = .ok () :=
      check_same_dimnames_ok f ds0 tmn fname (t0 :: rest) hallC
    simp only [read_vals_cime, hds0, hcheck, hmaplen, gt_iff_lt, if_pos hlen]

/-- Witness for C8: a single-tracer file whose tracer is stored on 4
dimensions. -/
theorem C8_witness :
    read_vals_file ["a"] "tm" "state.nc"
        (NcFile.mk [("x", 1), ("y", 1), ("z", 1), ("w", 1)]
          [("a", ["x", "y", "z", "w"]), ("a_CUR", ["x", "y", "z", "w"])] [])
        = .error (.valueError (ndim_msg "tm" "state.nc" (["x", "y", "z", "w"] : List String).length)) ∧
    read_vals_cime ["a"] "tm" "state.nc"
        (NcFile.mk [("x", 1), ("y", 1), ("z", 1), ("w", 1)]
          [("a", ["x", "y", "z", "w"]), ("a_CUR", ["x", "y", "z", "w"])] [])
        = .error (.valueError (ndim_msg "tm" "state.nc" (["x", "y", "z", "w"] : List String).length)) :=
  C8_ndim_too_large
    (NcFile.mk [("x", 1), ("y", 1), ("z", 1), ("w", 1)]
      [("a", ["x", "y", "z", "w"]), ("a_CUR", ["x", "y", "z", "w"])] [])
    "tm" "state.nc" "a" [] ["x", "y", "z", "w"]
    (by decide) (by decide) (by decide)

end NK

namespace NK

/-! ## Claim C9: the unknown dump phase tag -/

/-- Claim C9: in both tracer-module variants, calling `dump` with any action
tag other than "define" or "write" immediately raises the ValueError
identifying the bad tag (the error value carries the offending `action`
string), and since the error is raised before anything is done the file-handle
state is returned unchanged in no branch — no dimension, variable definition
or value write occurs. -/
theorem C9_dump_unknown_action (tracer_names : List String)
    (dimensions : List (String × ℕ)) (vals : List (List ℚ)) (depth : SpatialAxis)
    (st : NcState) (action : String)
    (h1 : action ≠ "define") (h2 : action ≠ "write") :
    dump_test_problem tracer_names dimensions vals depth st action
        = .error (.valueErrorTuple "unknown action=%s" action) ∧
    dump_cime_pop tracer_names dimensions vals st action
        = .error (.valueErrorTuple "unknown action=" action) := by
  constructor
  · rw [dump_test_problem, if_neg h1, if_neg h2]
  · rw [dump_cime_pop, if_neg h1, if_neg h2]

/-- Witness for C9 with the unknown tag "read" on an empty module and file. -/
theorem C9_witness :
    dump_test_problem [] [] [] (SpatialAxis.mk "depth" []) (NcState.mk [] [] []) "read"
        = .error (.valueErrorTuple "unknown action=%s" "read") ∧
    dump_cime_pop [] [] [] (NcState.mk [] [] []) "read"
        = .error (.valueErrorTuple "unknown action=" "read") :=
  C9_dump_unknown_action [] [] [] (SpatialAxis.mk "depth" []) (NcState.mk [] [] []) "read"
    (by decide) (by decide)

end NK
